import Mathlib

/-!
Verification of the field-goal data scraping pipeline in
src/dataset/scrape.py.

The development shallowly embeds the parts of the script that carry real
semantics: the attempt/made left join and indicator derivation of
get_field_goal_data, the inner weather join, the CSV consolidation routine
merge_csvs, the directory utilities purge_folder and validate_dir, and the
API client CFBDClient (response_as_df, get, header handling).

Tables are lists of rows; pandas merge semantics are modelled faithfully
(a left row pairs with every matching right row, an unmatched left row
yields a single row with a null right side). Fallible steps return
Except String.
-/

namespace Scrape

/-- One play-level stat event row as returned by the plays/stats endpoint of
the API and converted to a data frame (src/dataset/scrape.py,
get_field_goal_data). Only the columns that participate in the joins are
named: playId (join key of the attempt/made merge), gameId (join key of the
weather merge) and the statType label column. All remaining columns are
opaque passthrough and do not affect any join. -/
structure StatRow where
  playId : Int
  gameId : Int
  statType : String
deriving DecidableEq

/-- One row of the two-column projection makes[[playId, statType]] taken on
line 140 of src/dataset/scrape.py before the left merge. -/
structure MakeRow where
  playId : Int
  statType : String
deriving DecidableEq

/-- The projection makes[[playId, statType]]: keep the playId and statType
columns of every row of the makes table. -/
def projectMakes (makes : List StatRow) : List MakeRow :=
  makes.map fun m => { playId := m.playId, statType := m.statType }

/-- pd.merge(left=attempts, right=makes[[playId, statType]], how=left,
on=playId) from src/dataset/scrape.py lines 138-143. Pandas left-merge
semantics: each left row, in order, pairs with every right row whose key is
equal (in right order); a left row with no match yields exactly one row
whose right-hand statType column is null. After the rename on lines
144-148 the right statType column is the provisional made column, modelled
here as an Option String. -/
def leftMergeOnPlayId : List StatRow → List MakeRow → List (StatRow × Option String)
  | [], _ => []
  | a :: rest, makes =>
    (let ms := makes.filter fun m => m.playId == a.playId
     if ms.isEmpty then [(a, none)]
     else ms.map fun m => (a, some m.statType))
      ++ leftMergeOnPlayId rest makes

/-- One cell of the pandas object column made: after fillna it holds either
an integer or a string. -/
inductive Cell where
  | int : Int → Cell
  | str : String → Cell
deriving DecidableEq

/-- Line 151 of src/dataset/scrape.py: fillna(0) maps a null made cell to
the integer 0 and leaves a matched statType string unchanged. -/
def fillnaZero : Option String → Cell
  | none => Cell.int 0
  | some s => Cell.str s

/-- Lines 152-155 of src/dataset/scrape.py: replace maps the value
Field Goal Made to 1 and the value 0 to 0; every other cell value is left
unchanged. -/
def replaceMade : Cell → Cell
  | Cell.str s => if s = "Field Goal Made" then Cell.int 1 else Cell.str s
  | Cell.int n => Cell.int n

/-- Accumulate the remainder of a digit run in which single underscores may
appear between digits (PEP 515): an underscore must be directly followed by
a digit, and any other non-digit character fails the parse. -/
def digitsRest : Nat → List Char → Option Nat
  | acc, [] => some acc
  | acc, '_' :: c :: cs =>
    if c.isDigit then digitsRest (acc * 10 + (c.toNat - 48)) cs else none
  | acc, c :: cs =>
    if c.isDigit then digitsRest (acc * 10 + (c.toNat - 48)) cs else none

/-- A digit run must start with a digit: int() rejects the empty string and
a leading underscore. -/
def digitsFirst : List Char → Option Nat
  | [] => none
  | c :: cs => if c.isDigit then digitsRest (c.toNat - 48) cs else none

/-- The optional sign of int(): one + or - directly before the digits;
whitespace between the sign and the digits is rejected. -/
def signedDigits : List Char → Option Int
  | '-' :: cs =>
    match digitsFirst cs with
    | some n => some (-(n : Int))
    | none => none
  | '+' :: cs =>
    match digitsFirst cs with
    | some n => some (n : Int)
    | none => none
  | cs =>
    match digitsFirst cs with
    | some n => some (n : Int)
    | none => none

/-- The Python int constructor applied to a string: surrounding whitespace
is stripped, and an optional sign followed by a nonempty run of decimal
digits, with single underscores allowed between digits, parses to that
integer; every other string raises ValueError, modelled as none. The
whitespace stripped here is space, tab, line feed and carriage return;
Python additionally strips form feed, vertical tab and non-ASCII Unicode
whitespace, and reads non-ASCII Unicode decimal digits. No theorem below
leans on that residue: pyInt appears in no hypothesis, and the one place a
theorem evaluates it is the counterexample label 2, where Python agrees. -/
def pyInt (s : String) : Option Int :=
  signedDigits (((s.data.dropWhile Char.isWhitespace).reverse.dropWhile
    Char.isWhitespace).reverse)

/-- Line 156 of src/dataset/scrape.py: astype(int) on an object column
applies the Python int constructor to every cell. An integer passes
through; a string that is a decimal integer literal is silently parsed to
that integer; any other string raises ValueError. -/
def astypeInt : Cell → Except String Int
  | Cell.int n => Except.ok n
  | Cell.str s =>
    match pyInt s with
    | some n => Except.ok n
    | none => Except.error ("ValueError: invalid literal for int: " ++ s)

/-- The whole made-column conversion of lines 150-156, applied to every row
of the joined table. astype evaluates the conversion on the whole column,
so a single bad cell fails the whole table. -/
def deriveMadeColumn : List (StatRow × Option String) → Except String (List (StatRow × Int))
  | [] => Except.ok []
  | (a, v) :: rest =>
    match astypeInt (replaceMade (fillnaZero v)) with
    | Except.error e => Except.error e
    | Except.ok n =>
      match deriveMadeColumn rest with
      | Except.error e => Except.error e
      | Except.ok rest2 => Except.ok ((a, n) :: rest2)

/-- The field_goals table of get_field_goal_data after lines 138-156: the
left merge of attempts with the projected makes, followed by the made
indicator conversion. When retrieve_weather_data is false this is exactly
the table written to the weekly CSV file. -/
def fieldGoalsTable (attempts makes : List StatRow) : Except String (List (StatRow × Int)) :=
  deriveMadeColumn (leftMergeOnPlayId attempts (projectMakes makes))

/-- The table written by a weather-disabled run (lines 158-160 of
src/dataset/scrape.py write field_goals as is). -/
def weatherDisabledOutput (attempts makes : List StatRow) : Except String (List (StatRow × Int)) :=
  fieldGoalsTable attempts makes

/-- One row of weather[weather_columns_to_keep] (lines 163-196 of
src/dataset/scrape.py): the id column, which is the join key, plus the
values of the other thirteen whitelisted weather columns, kept opaque. -/
structure WeatherRow where
  id : Int
  data : List String
deriving DecidableEq

/-- pd.merge(left=field_goals, right=weather[...], how=inner,
left_on=gameId, right_on=id) followed by drop(columns=id), lines 194-201 of
src/dataset/scrape.py. Pandas inner-merge semantics: each left row pairs
with every right row whose id equals its gameId; unmatched left rows are
dropped. The dropped id column is reflected by keeping only the data part
of the weather row. -/
def innerMergeOnGameId : List (StatRow × Int) → List WeatherRow → List ((StatRow × Int) × List String)
  | [], _ => []
  | r :: rest, weather =>
    ((weather.filter fun w => w.id == r.1.gameId).map fun w => (r, w.data))
      ++ innerMergeOnGameId rest weather

/-- The table written by a weather-enabled run of get_field_goal_data:
field_goals inner-joined with the projected weather table. -/
def weatherEnabledOutput (attempts makes : List StatRow) (weather : List WeatherRow) :
    Except String (List ((StatRow × Int) × List String)) :=
  match fieldGoalsTable attempts makes with
  | Except.error e => Except.error e
  | Except.ok fg => Except.ok (innerMergeOnGameId fg weather)

/-- One filesystem entry for the purge_folder model: a regular file, a
symbolic link, or a directory with a list of children. Names of children
are irrelevant to purge_folder and omitted. -/
inductive Node where
  | file : Node
  | symlink : Node
  | dir : List Node → Node

/-- os.rmdir semantics as used by Path.rmdir: fails with FileNotFoundError
when the target does not exist, with NotADirectoryError when it is not a
directory, and with OSError when the directory is not empty. -/
def rmdir : Option Node → Except String Unit
  | none => Except.error "FileNotFoundError"
  | some (Node.dir []) => Except.ok ()
  | some (Node.dir (_ :: _)) => Except.error "OSError: directory not empty"
  | some Node.file => Except.error "NotADirectoryError"
  | some Node.symlink => Except.error "NotADirectoryError"

mutual

/-- purge_folder from src/dataset/scrape.py lines 251-264. The argument is
the entry at the given path (none when the path does not exist, modelling
the folder.exists() guard); the result is the entry at that path after the
call. The body runs the rglob loop over the subtree and then calls
folder.rmdir() on whatever remains. -/
def purge_folder : Option Node → Except String (Option Node)
  | none => Except.ok none
  | some n =>
    match purgeLoop n with
    | Except.error e => Except.error e
    | Except.ok n2 =>
      match rmdir (some n2) with
      | Except.error e => Except.error e
      | Except.ok _ => Except.ok none
termination_by o => sizeOf o

/-- The loop for path in folder.rglob(STAR) of purge_folder, as its effect
on the entry at the folder path. rglob on a non-directory yields nothing.
rglob yields the direct children of a directory before any deeper
descendant; a deeper descendant is yielded only after its parent has been
processed, at which point it has already been deleted and every kind test
in the loop body is false, so the body skips it. The residual iteration is
therefore over the direct children. -/
def purgeLoop : Node → Except String Node
  | Node.file => Except.ok Node.file
  | Node.symlink => Except.ok Node.symlink
  | Node.dir cs =>
    match purgeChildren cs with
    | Except.error e => Except.error e
    | Except.ok cs2 => Except.ok (Node.dir cs2)
termination_by n => sizeOf n

/-- The loop body applied to each direct child in order, returning the
children that remain. A file or symlink child is unlinked. For a directory
child the source calls purge_folder(path) and then path.rmdir() on the
entry that remains after that recursive call. -/
def purgeChildren : List Node → Except String (List Node)
  | [] => Except.ok []
  | Node.file :: rest => purgeChildren rest
  | Node.symlink :: rest => purgeChildren rest
  | Node.dir cs :: rest =>
    match purge_folder (some (Node.dir cs)) with
    | Except.error e => Except.error e
    | Except.ok r =>
      match rmdir r with
      | Except.error e => Except.error e
      | Except.ok _ => purgeChildren rest
termination_by l => sizeOf l
decreasing_by
  all_goals simp_wf
  all_goals first
    | omega
    | (have h : 0 < sizeOf rest := by cases rest <;> simp_arith
       omega)

end

/-- One CSV file of the data folder as read by merge_csvs: its filename,
its header line and its data rows. A same-schema CSV file always has a
header line, so the header is a plain field. -/
structure CSVFile where
  name : String
  header : List String
  rows : List (List String)
deriving DecidableEq, Inhabited

/-- The ordering used by sorted(data_folder.glob(STAR.csv)) on line 224 of
src/dataset/scrape.py: within a single directory, paths compare by
filename. -/
def fileLe (a b : CSVFile) : Bool := decide (a.name ≤ b.name)

/-- The for loop of merge_csvs (lines 231-242) after the first file has
established the canonical header and contributed its rows: each further
file must have an equal header, otherwise a ValueError is raised; its data
rows are appended to the accumulated rows. -/
def mergeLoop (header : List String) (acc : List (List String)) :
    List CSVFile → Except String (List (List String))
  | [] => Except.ok acc
  | f :: rest =>
    if f.header = header then mergeLoop header (acc ++ f.rows) rest
    else Except.error ("Header mismatch in " ++ f.name)

/-- merge_csvs from src/dataset/scrape.py lines 220-248: sort the matching
files by name, fail when there are none, take the first header as
canonical, accumulate all data rows in file order, and write one output of
the canonical header followed by the accumulated rows. The returned pair is
the written file: its header line and its data rows. -/
def merge_csvs (files : List CSVFile) : Except String (List String × List (List String)) :=
  match files.mergeSort fileLe with
  | [] => Except.error "No CSV files found"
  | first :: rest =>
    match mergeLoop first.header first.rows rest with
    | Except.error e => Except.error e
    | Except.ok rows => Except.ok (first.header, rows)

/-- The concatenation of the data rows of a list of files in order, used to
state what merge_csvs accumulates. -/
def allRows : List CSVFile → List (List String)
  | [] => []
  | f :: rest => f.rows ++ allRows rest

/-- A filesystem tree for the validate_dir model: a regular file, or a
directory with named children. -/
inductive FSTree where
  | file : FSTree
  | dir : List (String × FSTree) → FSTree

/-- Look a name up among the children of a directory. -/
def findEntry : List (String × FSTree) → String → Option FSTree
  | [], _ => none
  | (k, t) :: rest, name => if k = name then some t else findEntry rest name

/-- Replace the entry for a name among the children of a directory,
keeping its position. -/
def setEntry : List (String × FSTree) → String → FSTree → List (String × FSTree)
  | [], k, t => [(k, t)]
  | (k2, t2) :: rest, k, t =>
    if k2 = k then (k2, t) :: rest else (k2, t2) :: setEntry rest k t

/-- Resolve a path, given as a list of components, in a tree. -/
def lookupPath : FSTree → List String → Option FSTree
  | t, [] => some t
  | FSTree.dir cs, c :: rest =>
    match findEntry cs c with
    | some t => lookupPath t rest
    | none => none
  | FSTree.file, _ :: _ => none

/-- Path.mkdir(parents=True, exist_ok=True) as called on line 273 of
src/dataset/scrape.py: walk the path, creating every missing component as a
directory; an existing directory component is entered; reaching a regular
file fails (NotADirectoryError for an intermediate component,
FileExistsError when the full path itself is a file). -/
def mkdir_p : List String → FSTree → Except String FSTree
  | [], FSTree.dir cs => Except.ok (FSTree.dir cs)
  | [], FSTree.file => Except.error "FileExistsError"
  | _ :: _, FSTree.file => Except.error "NotADirectoryError"
  | c :: rest, FSTree.dir cs =>
    match findEntry cs c with
    | some sub =>
      match mkdir_p rest sub with
      | Except.error e => Except.error e
      | Except.ok sub2 => Except.ok (FSTree.dir (setEntry cs c sub2))
    | none =>
      match mkdir_p rest (FSTree.dir []) with
      | Except.error e => Except.error e
      | Except.ok sub2 => Except.ok (FSTree.dir (cs ++ [(c, sub2)]))

/-- Path.exists() for a path in a tree. -/
def pathExists (t : FSTree) (p : List String) : Bool :=
  (lookupPath t p).isSome

/-- Path.is_dir() for a path in a tree. -/
def isDirAt (t : FSTree) (p : List String) : Bool :=
  match lookupPath t p with
  | some (FSTree.dir _) => true
  | _ => false

/-- validate_dir from src/dataset/scrape.py lines 267-275: create the
directory (with parents) when the path does not exist; fail when the path
exists but is not a directory; otherwise do nothing. The result is the
tree after the call. -/
def validate_dir (t : FSTree) (p : List String) : Except String FSTree :=
  if !(pathExists t p) then mkdir_p p t
  else if !(isDirAt t p) then Except.error "NotADirectoryError"
  else Except.ok t

/-- A decoded JSON value, the input domain of CFBDClient.response_as_df. -/
inductive JVal where
  | null : JVal
  | bool : Bool → JVal
  | num : Int → JVal
  | str : String → JVal
  | list : List JVal → JVal
  | obj : List (String × JVal) → JVal

/-- Whether a decoded value is a Python list. -/
def JVal.isList : JVal → Bool
  | JVal.list _ => true
  | _ => false

/-- Whether a decoded value is a record, that is a Python dict. -/
def JVal.isObj : JVal → Bool
  | JVal.obj _ => true
  | _ => false

/-- CFBDClient.response_as_df from src/dataset/scrape.py lines 82-95, up to
the final pd.DataFrame call: when the response is a dict whose values are
all lists and which has exactly one key, unwrap to that single value;
any other dict is wrapped as the one-element list [response]; a non-dict
response is passed through unchanged. The returned value is what is handed
to pd.DataFrame. -/
def response_as_df : JVal → JVal
  | JVal.obj fields =>
    if (fields.all fun kv => kv.2.isList) && fields.length == 1 then
      match fields.head? with
      | some kv => kv.2
      | none => JVal.list [JVal.obj fields]
    else JVal.list [JVal.obj fields]
  | v => v

/-- pd.DataFrame applied to a list of records: the rows of the resulting
frame, one per record in order. -/
def dfRows : JVal → List JVal
  | JVal.list xs => xs
  | v => [v]

/-- The field names of one record. -/
def rowFields : JVal → List String
  | JVal.obj fields => fields.map Prod.fst
  | _ => []

/-- Accumulate the column set of a frame built from a list of records:
field names in order of first appearance. -/
def dfColumnsAux : List String → List JVal → List String
  | acc, [] => acc
  | acc, r :: rest =>
    dfColumnsAux (acc ++ ((rowFields r).filter fun c => !(acc.contains c))) rest

/-- The columns of pd.DataFrame applied to a list of records: the union of
the field names of the records, in order of first appearance. -/
def dfColumns (rows : List JVal) : List String :=
  dfColumnsAux [] rows

/-- The API client of src/dataset/scrape.py lines 48-58: a hostname and a
headers dict, modelled as an association list with unique keys. -/
structure CFBDClient where
  hostname : String
  headers : List (String × String)

/-- Python dict item assignment d[k] = v: overwrite the value at an
existing key in place, otherwise append the new entry at the end. -/
def dict_set : List (String × String) → String → String → List (String × String)
  | [], k, v => [(k, v)]
  | (k2, v2) :: d, k, v =>
    if k2 = k then (k2, v) :: d else (k2, v2) :: dict_set d k v

/-- Python dict.update(other): assign every entry of other into the
receiver, in order. -/
def dict_update : List (String × String) → List (String × String) → List (String × String)
  | d, [] => d
  | d, (k, v) :: rest => dict_update (dict_set d k v) rest

/-- CFBDClient construction (lines 55-58 of src/dataset/scrape.py): an
empty headers dict with the Authorization bearer entry assigned. -/
def CFBDClient.init (hostname bearer_token : String) : CFBDClient :=
  { hostname := hostname
    headers := dict_set [] "Authorization" ("Bearer " ++ bearer_token) }

/-- The state of the caller-supplied headers dict after the
headers.update(self.headers) statement on line 69 of src/dataset/scrape.py
inside CFBDClient.get. A none argument models the default value None, for
which get substitutes a fresh empty dict. Because update mutates the dict
object in place, this is the content the caller observes in its own dict
after the call. -/
def getMutatedHeaders (c : CFBDClient) (callerHeaders : Option (List (String × String))) :
    List (String × String) :=
  dict_update (callerHeaders.getD []) c.headers

/-- One HTTP response as seen by CFBDClient.get: the status code, the body
text, and the decoded JSON body. -/
structure HttpResponse where
  status_code : Nat
  text : String
  body_json : JVal

/-- requests.Response.ok: true exactly when the status code is below 400. -/
def HttpResponse.ok (r : HttpResponse) : Bool :=
  decide (r.status_code < 400)

/-- The RequestException raised on lines 77-78 of src/dataset/scrape.py: a
message of the form status_code: text, with the response object attached,
which carries the status code and the body. -/
structure RequestException where
  message : String
  response : HttpResponse

/-- CFBDClient.get from src/dataset/scrape.py lines 60-80, as a function of
the HTTP response the single request receives: on a non-ok status, raise a
RequestException carrying the formatted message and the response; on an ok
status, return the decoded body, converted with response_as_df when as_df
is set. -/
def CFBDClient.get (_c : CFBDClient) (r : HttpResponse) (as_df : Bool) :
    Except RequestException JVal :=
  if !r.ok then
    Except.error { message := toString r.status_code ++ ": " ++ r.text, response := r }
  else
    Except.ok (if as_df then response_as_df r.body_json else r.body_json)

/-- The exception produced when the network yields no response at all
(requests raises a ConnectionError before any status exists). -/
def connectionFailure : RequestException :=
  { message := "ConnectionError"
    response := { status_code := 0, text := "", body_json := JVal.null } }

/-- CFBDClient.get as driven by the network environment: the list is the
sequence of responses that successive HTTP requests would receive. get
issues exactly one request, so only the head is ever consumed; there is no
retry. -/
def CFBDClient.getFromNetwork (c : CFBDClient) (responses : List HttpResponse) (as_df : Bool) :
    Except RequestException JVal :=
  match responses with
  | [] => Except.error connectionFailure
  | r :: _ => c.get r as_df

/-- In a list whose keys, under a given key function, are pairwise distinct,
at most one element passes a filter that selects one fixed key. -/
theorem length_filter_key_le_one {α : Type} (key : α → Int) :
    ∀ l : List α, (l.map key).Nodup → ∀ p : Int,
      (l.filter fun x => key x == p).length ≤ 1 := by
  intro l
  induction l with
  | nil => intro _ p; simp
  | cons m rest ih =>
    intro hnd p
    rw [List.map_cons, List.nodup_cons] at hnd
    rw [List.filter_cons]
    cases hkey : (key m == p) with
    | false => simpa using ih hnd.2 p
    | true =>
      have hkm : key m = p := by simpa using hkey
      have hrest : rest.filter (fun x => key x == p) = [] := by
        rw [List.filter_eq_nil_iff]
        intro x hx hpx
        have hxp : key x = p := by simpa using hpx
        exact hnd.1 (List.mem_map.mpr ⟨x, hx, by rw [hxp, hkm]⟩)
      simp [hrest]

/-- The two-column projection keeps the playId column unchanged. -/
theorem projectMakes_map_playId (makes : List StatRow) :
    (projectMakes makes).map MakeRow.playId = makes.map StatRow.playId := by
  unfold projectMakes
  rw [List.map_map]
  rfl

/-- C2 (amended). When no two rows of the makes table share a play
identifier — which is what the API returns, at most one made event per
play — the left join emits exactly one output row per attempt row, in
order: it neither drops an attempt nor duplicates one. Stated as: the left
projection of the joined table is the attempts table itself. -/
theorem left_join_one_row_per_attempt (attempts makes : List StatRow)
    (h : (makes.map StatRow.playId).Nodup) :
    (leftMergeOnPlayId attempts (projectMakes makes)).map Prod.fst = attempts := by
  have hnd : ((projectMakes makes).map MakeRow.playId).Nodup := by
    rw [projectMakes_map_playId]; exact h
  induction attempts with
  | nil => rfl
  | cons a rest ih =>
    simp only [leftMergeOnPlayId]
    rw [List.map_append, ih]
    by_cases hemp : ((projectMakes makes).filter fun m => m.playId == a.playId).isEmpty
    · rw [if_pos hemp]
      rfl
    · rw [if_neg hemp]
      have hle := length_filter_key_le_one MakeRow.playId (projectMakes makes) hnd a.playId
      have hne : (projectMakes makes).filter (fun m => m.playId == a.playId) ≠ [] := by
        intro hcontra
        rw [hcontra] at hemp
        exact hemp rfl
      have hlen : ((projectMakes makes).filter fun m => m.playId == a.playId).length = 1 := by
        have hpos := List.length_pos.mpr hne
        omega
      rcases List.length_eq_one.mp hlen with ⟨m, hm⟩
      rw [hm]
      rfl

/-- Witness for C2 at a concrete week: one attempt and one matching made
event with distinct play identifiers overall. -/
theorem left_join_one_row_per_attempt_witness :
    (leftMergeOnPlayId
        [{ playId := 10, gameId := 100, statType := "Field Goal Attempt" },
         { playId := 11, gameId := 100, statType := "Field Goal Attempt" }]
        (projectMakes [{ playId := 10, gameId := 100, statType := "Field Goal Made" }])).map Prod.fst
      = [{ playId := 10, gameId := 100, statType := "Field Goal Attempt" },
         { playId := 11, gameId := 100, statType := "Field Goal Attempt" }] := by
  exact left_join_one_row_per_attempt _ _ (by decide)

/-- C2 counterexample. The claim quantifies over every possible makes
table: when two make rows share the play identifier of one attempt, the
pandas left merge emits two output rows for that single attempt row. -/
theorem left_join_duplicate_makes_counterexample :
    ([{ playId := 1, gameId := 5, statType := "Field Goal Attempt" }] : List StatRow).length = 1 ∧
    (leftMergeOnPlayId [{ playId := 1, gameId := 5, statType := "Field Goal Attempt" }]
      (projectMakes [{ playId := 1, gameId := 5, statType := "Field Goal Made" },
                     { playId := 1, gameId := 5, statType := "Field Goal Made" }])).length = 2 := by
  exact ⟨rfl, rfl⟩

/-- The inner weather merge emits at most one row per field-goal row when
weather identifiers are pairwise distinct. -/
theorem innerMerge_length_le (weather : List WeatherRow)
    (h : (weather.map WeatherRow.id).Nodup) :
    ∀ fg : List (StatRow × Int), (innerMergeOnGameId fg weather).length ≤ fg.length := by
  intro fg
  induction fg with
  | nil => simp [innerMergeOnGameId]
  | cons r rest ih =>
    simp only [innerMergeOnGameId]
    rw [List.length_append, List.length_map, List.length_cons]
    have := length_filter_key_le_one WeatherRow.id weather h r.1.gameId
    omega

/-- C3 (amended). When no two weather records share a game identifier —
the shape the games/weather endpoint returns, one record per game — the
row count of the weather-enabled output is at most the row count of the
weather-disabled output for the same year and week: the inner weather join
is non-expanding. -/
theorem weather_join_nonexpanding (attempts makes : List StatRow) (weather : List WeatherRow)
    (h : (weather.map WeatherRow.id).Nodup) :
    ∀ fgOut wOut,
      weatherDisabledOutput attempts makes = Except.ok fgOut →
      weatherEnabledOutput attempts makes weather = Except.ok wOut →
      wOut.length ≤ fgOut.length := by
  intro fgOut wOut hdis hen
  unfold weatherDisabledOutput at hdis
  unfold weatherEnabledOutput at hen
  rw [hdis] at hen
  cases hen
  exact innerMerge_length_le weather h fgOut

/-- Witness for C3 at a concrete week: two attempts, a made event matching
the first, and one weather record, matching only the first game, so the
second row is dropped by the inner join. -/
theorem weather_join_nonexpanding_witness :
    ([(({ playId := 1, gameId := 7, statType := "Field Goal Attempt" } : StatRow), (1 : Int)),
        (({ playId := 2, gameId := 8, statType := "Field Goal Attempt" } : StatRow), (0 : Int))].length : Nat)
      ≥ ([((({ playId := 1, gameId := 7, statType := "Field Goal Attempt" } : StatRow), (1 : Int)),
            ["0"])] : List ((StatRow × Int) × List String)).length := by
  exact weather_join_nonexpanding
    [{ playId := 1, gameId := 7, statType := "Field Goal Attempt" },
     { playId := 2, gameId := 8, statType := "Field Goal Attempt" }]
    [{ playId := 1, gameId := 7, statType := "Field Goal Made" }]
    [{ id := 7, data := ["0"] }] (by decide) _ _ rfl rfl

/-- C3 counterexample. The claim quantifies over every pair of API
responses: with one attempt whose made event matches (a nonempty makes
table, so the column projection on line 140 is well defined), two weather
records carrying the same game identifier make the inner join emit two
rows for the single field-goal row, so the weather-enabled output has
strictly more rows than the weather-disabled output. -/
theorem weather_join_expands_counterexample :
    weatherDisabledOutput [{ playId := 1, gameId := 7, statType := "Field Goal Attempt" }]
        [{ playId := 1, gameId := 7, statType := "Field Goal Made" }]
      = Except.ok [({ playId := 1, gameId := 7, statType := "Field Goal Attempt" }, 1)] ∧
    weatherEnabledOutput [{ playId := 1, gameId := 7, statType := "Field Goal Attempt" }]
        [{ playId := 1, gameId := 7, statType := "Field Goal Made" }]
        [{ id := 7, data := ["a"] }, { id := 7, data := ["b"] }]
      = Except.ok [(({ playId := 1, gameId := 7, statType := "Field Goal Attempt" }, 1), ["a"]),
                   (({ playId := 1, gameId := 7, statType := "Field Goal Attempt" }, 1), ["b"])] ∧
    ([({ playId := 1, gameId := 7, statType := "Field Goal Attempt" }, 1)] :
        List (StatRow × Int)).length
      < ([(({ playId := 1, gameId := 7, statType := "Field Goal Attempt" }, 1), ["a"]),
          (({ playId := 1, gameId := 7, statType := "Field Goal Attempt" }, 1), ["b"])] :
          List ((StatRow × Int) × List String)).length := by
  exact ⟨rfl, rfl, by decide⟩

/-- C4 (code bug). purge_folder is a no-op on a nonexistent path and does
remove a directory whose entries are only files and symlinks, but on any
directory that contains a subdirectory it raises FileNotFoundError: the
loop body calls purge_folder(path) on the subdirectory, which deletes the
subdirectory itself via its final folder.rmdir(), and then calls
path.rmdir() on the now-nonexistent path. The claim (and the docstring of
the function) says it succeeds for arbitrarily nested subdirectories; the
minimal failing input is a directory holding one empty subdirectory, and a
nested non-empty subdirectory fails the same way. -/
theorem purge_folder_fails_on_subdirectory :
    purge_folder none = Except.ok none ∧
    purge_folder (some (Node.dir [Node.file, Node.symlink])) = Except.ok none ∧
    purge_folder (some (Node.dir [Node.dir []])) = Except.error "FileNotFoundError" ∧
    purge_folder (some (Node.dir [Node.dir [Node.file]])) = Except.error "FileNotFoundError" := by
  refine ⟨by simp [purge_folder], ?_, ?_, ?_⟩
  · simp [purge_folder, purgeLoop, purgeChildren, rmdir]
  · simp [purge_folder, purgeLoop, purgeChildren, rmdir]
  · simp [purge_folder, purgeLoop, purgeChildren, rmdir]

/-- Replacing the entry at a name makes lookup of that name return the new
subtree. -/
theorem findEntry_setEntry (cs : List (String × FSTree)) (c : String) (t : FSTree) :
    findEntry (setEntry cs c t) c = some t := by
  induction cs with
  | nil => simp [setEntry, findEntry]
  | cons kv rest ih =>
    obtain ⟨k2, t2⟩ := kv
    by_cases hk : k2 = c
    · simp [setEntry, hk, findEntry]
    · simp [setEntry, hk, findEntry, ih]

/-- Appending an entry for a fresh name makes lookup of that name return
the appended subtree. -/
theorem findEntry_append_self (cs : List (String × FSTree)) (c : String) (t : FSTree)
    (h : findEntry cs c = none) :
    findEntry (cs ++ [(c, t)]) c = some t := by
  induction cs with
  | nil => simp [findEntry]
  | cons kv rest ih =>
    obtain ⟨k2, t2⟩ := kv
    by_cases hk : k2 = c
    · rw [findEntry, if_pos hk] at h
      cases h
    · rw [findEntry, if_neg hk] at h
      rw [List.cons_append, findEntry, if_neg hk]
      exact ih h

/-- mkdir with parents succeeds and leaves a directory at the path whenever
every existing prefix of the path resolves to a directory. -/
theorem mkdir_p_ok :
    ∀ (p : List String) (t : FSTree),
      (∀ q ∈ p.inits, pathExists t q = false ∨ isDirAt t q = true) →
      ∃ t2, mkdir_p p t = Except.ok t2 ∧ isDirAt t2 p = true := by
  intro p
  induction p with
  | nil =>
    intro t h
    rcases h [] (by simp) with h0 | h0
    · simp [pathExists, lookupPath] at h0
    · cases t with
      | file => simp [isDirAt, lookupPath] at h0
      | dir cs => exact ⟨FSTree.dir cs, rfl, h0⟩
  | cons c rest ih =>
    intro t h
    rcases h [] (by simp) with h0 | h0
    · simp [pathExists, lookupPath] at h0
    · cases t with
      | file => simp [isDirAt, lookupPath] at h0
      | dir cs =>
        cases hfind : findEntry cs c with
        | some sub =>
          have hsub : ∀ q ∈ rest.inits, pathExists sub q = false ∨ isDirAt sub q = true := by
            intro q hq
            have hmem : c :: q ∈ (c :: rest).inits := by
              rw [List.mem_inits] at hq ⊢
              exact List.cons_prefix_cons.mpr ⟨rfl, hq⟩
            have hcq := h (c :: q) hmem
            rw [pathExists, lookupPath, hfind] at hcq
            rw [isDirAt, lookupPath, hfind] at hcq
            exact hcq
          rcases ih sub hsub with ⟨sub2, hok, hdir⟩
          refine ⟨FSTree.dir (setEntry cs c sub2), ?_, ?_⟩
          · simp only [mkdir_p, hfind, hok]
          · rw [isDirAt, lookupPath, findEntry_setEntry]
            rw [isDirAt] at hdir
            exact hdir
        | none =>
          have hsub : ∀ q ∈ rest.inits,
              pathExists (FSTree.dir []) q = false ∨ isDirAt (FSTree.dir []) q = true := by
            intro q _
            cases q with
            | nil => right; rfl
            | cons x xs => left; rfl
          rcases ih (FSTree.dir []) hsub with ⟨sub2, hok, hdir⟩
          refine ⟨FSTree.dir (cs ++ [(c, sub2)]), ?_, ?_⟩
          · simp only [mkdir_p, hfind, hok]
          · rw [isDirAt, lookupPath, findEntry_append_self cs c sub2 hfind]
            rw [isDirAt] at hdir
            exact hdir

/-- C7 (amended). For every path all of whose existing prefixes resolve to
directories (no component is blocked by a regular file), validate_dir
succeeds, leaves a directory present at the path, creating intermediate
components as needed; calling it again immediately succeeds and changes
nothing; and calling it on an already-existing directory changes nothing.
The prefix condition is forced by the counterexample: with a regular file
at an intermediate component the first call on the same nonexistent path
fails instead of succeeding. -/
theorem validate_dir_idempotent (t : FSTree) (p : List String)
    (h : ∀ q ∈ p.inits, pathExists t q = false ∨ isDirAt t q = true) :
    ∃ t2, validate_dir t p = Except.ok t2 ∧ isDirAt t2 p = true ∧
      validate_dir t2 p = Except.ok t2 ∧
      (isDirAt t p = true → t2 = t) := by
  cases hex : pathExists t p with
  | false =>
    rcases mkdir_p_ok p t h with ⟨t2, hok, hdir⟩
    have hex2 : pathExists t2 p = true := by
      rw [isDirAt] at hdir
      rw [pathExists]
      cases hl : lookupPath t2 p with
      | none => rw [hl] at hdir; simp at hdir
      | some u => simp
    refine ⟨t2, ?_, hdir, ?_, ?_⟩
    · simp [validate_dir, hex, hok]
    · simp [validate_dir, hex2, hdir]
    · intro hd
      rw [isDirAt] at hd
      rw [pathExists] at hex
      cases hl : lookupPath t p with
      | none => rw [hl] at hd; simp at hd
      | some u => rw [hl] at hex; simp at hex
  | true =>
    have hd : isDirAt t p = true := by
      rcases h p (by simp [List.mem_inits]) with h0 | h0
      · rw [hex] at h0; cases h0
      · exact h0
    refine ⟨t, ?_, hd, ?_, fun _ => rfl⟩
    · simp [validate_dir, hex, hd]
    · simp [validate_dir, hex, hd]

/-- Witness for C7: the data directory path of the script, two components
deep, created in a root that holds an unrelated file under a different
name. -/
theorem validate_dir_idempotent_witness :
    ∃ t2, validate_dir (FSTree.dir [("readme", FSTree.file)]) ["dataset", "data"]
        = Except.ok t2 ∧
      isDirAt t2 ["dataset", "data"] = true ∧
      validate_dir t2 ["dataset", "data"] = Except.ok t2 ∧
      (isDirAt (FSTree.dir [("readme", FSTree.file)]) ["dataset", "data"] = true →
        t2 = FSTree.dir [("readme", FSTree.file)]) := by
  exact validate_dir_idempotent _ _ (by decide)

/-- C7 counterexample. The path a/b does not exist, yet validate_dir fails
on it, because the component a exists as a regular file and
mkdir(parents=True) cannot create a directory inside it; so the claim that
the call succeeds for every nonexistent path is false as stated. -/
theorem validate_dir_counterexample :
    pathExists (FSTree.dir [("a", FSTree.file)]) ["a", "b"] = false ∧
    validate_dir (FSTree.dir [("a", FSTree.file)]) ["a", "b"]
      = Except.error "NotADirectoryError" := by
  exact ⟨rfl, rfl⟩

/-- When every file in the list has the canonical header, the loop
accumulates all data rows in order after the accumulator. -/
theorem mergeLoop_ok (header : List String) :
    ∀ (fs : List CSVFile) (acc : List (List String)),
      (∀ f ∈ fs, f.header = header) →
      mergeLoop header acc fs = Except.ok (acc ++ allRows fs) := by
  intro fs
  induction fs with
  | nil => intro acc _; simp [mergeLoop, allRows]
  | cons f rest ih =>
    intro acc hall
    rw [mergeLoop, if_pos (hall f (List.mem_cons_self f rest))]
    rw [ih (acc ++ f.rows) (fun g hg => hall g (List.mem_cons_of_mem f hg))]
    rw [allRows, List.append_assoc]

/-- The loop fails exactly when some file in the list has a header other
than the canonical one. -/
theorem mergeLoop_error_iff (header : List String) :
    ∀ (fs : List CSVFile) (acc : List (List String)),
      ((∃ e, mergeLoop header acc fs = Except.error e) ↔
        ∃ f ∈ fs, f.header ≠ header) := by
  intro fs
  induction fs with
  | nil =>
    intro acc
    constructor
    · rintro ⟨e, he⟩; rw [mergeLoop] at he; cases he
    · rintro ⟨f, hf, _⟩; simp at hf
  | cons f rest ih =>
    intro acc
    by_cases hf : f.header = header
    · constructor
      · rintro ⟨e, he⟩
        rw [mergeLoop, if_pos hf] at he
        rcases (ih (acc ++ f.rows)).mp ⟨e, he⟩ with ⟨g, hg, hgne⟩
        exact ⟨g, List.mem_cons_of_mem f hg, hgne⟩
      · rintro ⟨g, hg, hgne⟩
        rcases List.mem_cons.mp hg with rfl | hg
        · exact absurd hf hgne
        · rcases (ih (acc ++ f.rows)).mpr ⟨g, hg, hgne⟩ with ⟨e, he⟩
          exact ⟨e, by rw [mergeLoop, if_pos hf]; exact he⟩
    · constructor
      · intro _
        exact ⟨f, List.mem_cons_self f rest, hf⟩
      · intro _
        exact ⟨_, by rw [mergeLoop, if_neg hf]⟩

/-- C5 (confirmed). For every non-empty set of same-schema CSV files,
merge_csvs visits the files in lexically sorted filename order, takes the
first file header as canonical, and the written output is that single
header followed by the data rows of all files, headers excluded, in the
order visited: there is a name-sorted permutation of the input whose head
header and whose concatenated rows form the written pair. -/
theorem merge_csvs_sorted_concat (files : List CSVFile)
    (hne : files ≠ [])
    (hsame : ∀ f ∈ files, ∀ g ∈ files, f.header = g.header) :
    ∃ sorted, files.Perm sorted ∧
      sorted.Pairwise (fun a b => a.name ≤ b.name) ∧
      merge_csvs files = Except.ok (sorted.headI.header, allRows sorted) := by
  have htrans : ∀ a b c2 : CSVFile,
      fileLe a b = true → fileLe b c2 = true → fileLe a c2 = true := by
    intro a b c2 h1 h2
    simp only [fileLe, decide_eq_true_eq] at h1 h2 ⊢
    exact le_trans h1 h2
  have htotal : ∀ a b : CSVFile, (fileLe a b || fileLe b a) = true := by
    intro a b
    simp only [fileLe, Bool.or_eq_true, decide_eq_true_eq]
    exact le_total a.name b.name
  have hperm : (files.mergeSort fileLe).Perm files := List.mergeSort_perm files fileLe
  have hpair : (files.mergeSort fileLe).Pairwise (fun a b => fileLe a b = true) :=
    List.sorted_mergeSort htrans htotal files
  refine ⟨files.mergeSort fileLe, hperm.symm,
    List.Pairwise.imp (fun hab => by simpa [fileLe] using hab) hpair, ?_⟩
  have hmem : ∀ f ∈ files.mergeSort fileLe, f ∈ files := fun f hf => hperm.mem_iff.mp hf
  cases hsort : files.mergeSort fileLe with
  | nil =>
    rw [hsort] at hperm
    exact absurd hperm.symm.eq_nil hne
  | cons first rest =>
    rw [hsort] at hmem
    simp only [merge_csvs, hsort]
    have hall : ∀ f ∈ rest, f.header = first.header := by
      intro f hfr
      exact hsame f (hmem f (List.mem_cons_of_mem first hfr))
        first (hmem first (List.mem_cons_self first rest))
    rw [mergeLoop_ok first.header rest first.rows hall]
    rfl

/-- Witness for C5 at the two-file scenario of the claim, the files given
in reverse name order so that sorting matters. -/
theorem merge_csvs_sorted_concat_witness :
    ∃ sorted,
      ([{ name := "wk2.csv", header := ["a", "b"], rows := [["3", "4"]] },
        { name := "wk1.csv", header := ["a", "b"], rows := [["1", "2"]] }] :
        List CSVFile).Perm sorted ∧
      sorted.Pairwise (fun a b => a.name ≤ b.name) ∧
      merge_csvs [{ name := "wk2.csv", header := ["a", "b"], rows := [["3", "4"]] },
        { name := "wk1.csv", header := ["a", "b"], rows := [["1", "2"]] }]
        = Except.ok (sorted.headI.header, allRows sorted) := by
  exact merge_csvs_sorted_concat _ (by decide) (by decide)

/-- C6 (confirmed). merge_csvs fails, writing no output, exactly when
there are no matching CSV files or when two files disagree on the header —
equivalently, when some file after the first in sorted order has a header
differing from the first file header. Both failures are a deterministic
function of the input, as is everything in this model. -/
theorem merge_csvs_error_iff (files : List CSVFile) :
    (∃ e, merge_csvs files = Except.error e) ↔
      files = [] ∨ ∃ f ∈ files, ∃ g ∈ files, f.header ≠ g.header := by
  have hperm : (files.mergeSort fileLe).Perm files := List.mergeSort_perm files fileLe
  cases hsort : files.mergeSort fileLe with
  | nil =>
    rw [hsort] at hperm
    have hnil : files = [] := hperm.symm.eq_nil
    constructor
    · intro _; exact Or.inl hnil
    · intro _
      exact ⟨"No CSV files found", by simp only [merge_csvs, hsort]⟩
  | cons first rest =>
    rw [hsort] at hperm
    have hne : files ≠ [] := by
      intro hf
      rw [hf] at hperm
      cases hperm.eq_nil
    constructor
    · rintro ⟨e, he⟩
      simp only [merge_csvs, hsort] at he
      cases hloop : mergeLoop first.header first.rows rest with
      | error e2 =>
        rcases (mergeLoop_error_iff first.header rest first.rows).mp ⟨e2, hloop⟩
          with ⟨g, hg, hgne⟩
        exact Or.inr ⟨g, hperm.mem_iff.mp (List.mem_cons_of_mem first hg),
          first, hperm.mem_iff.mp (List.mem_cons_self first rest), hgne⟩
      | ok rows => rw [hloop] at he; cases he
    · rintro (hnil | ⟨f, hf, g, hg, hfg⟩)
      · exact absurd hnil hne
      · have hdiff : ∃ f2 ∈ rest, f2.header ≠ first.header := by
          by_cases hffirst : f.header = first.header
          · have hgfirst : g.header ≠ first.header := by
              intro hgf
              exact hfg (hffirst.trans hgf.symm)
            rcases List.mem_cons.mp (hperm.mem_iff.mpr hg) with rfl | hgrest
            · exact absurd rfl hgfirst
            · exact ⟨g, hgrest, hgfirst⟩
          · rcases List.mem_cons.mp (hperm.mem_iff.mpr hf) with rfl | hfrest
            · exact absurd rfl hffirst
            · exact ⟨f, hfrest, hffirst⟩
        rcases (mergeLoop_error_iff first.header rest first.rows).mpr hdiff with ⟨e, he⟩
        exact ⟨e, by simp only [merge_csvs, hsort, he]⟩

/-- A name already accumulated stays in the accumulated column set. -/
theorem mem_dfColumnsAux_of_mem_acc :
    ∀ (rows : List JVal) (acc : List String) (c : String),
      c ∈ acc → c ∈ dfColumnsAux acc rows := by
  intro rows
  induction rows with
  | nil => intro acc c hc; exact hc
  | cons r rest ih =>
    intro acc c hc
    rw [dfColumnsAux]
    exact ih _ c (List.mem_append.mpr (Or.inl hc))

/-- Every field name of every record appears among the columns of the
frame built from the records. -/
theorem rowFields_subset_dfColumnsAux :
    ∀ (rows : List JVal) (acc : List String) (r : JVal), r ∈ rows →
      ∀ c ∈ rowFields r, c ∈ dfColumnsAux acc rows := by
  intro rows
  induction rows with
  | nil => intro acc r hr; simp at hr
  | cons r0 rest ih =>
    intro acc r hr c hc
    rcases List.mem_cons.mp hr with rfl | hr
    · rw [dfColumnsAux]
      apply mem_dfColumnsAux_of_mem_acc
      rw [List.mem_append]
      by_cases hacc : acc.contains c = true
      · exact Or.inl (List.mem_of_elem_eq_true hacc)
      · refine Or.inr (List.mem_filter.mpr ⟨hc, ?_⟩)
        rw [Bool.not_eq_true']
        exact eq_false_of_ne_true hacc
    · rw [dfColumnsAux]
      exact ih _ r hr c hc

/-- C8 (confirmed). The tabular conversion behaves as specified: a mapping
with exactly one key whose value is a sequence (in particular a sequence
of records) is unwrapped to that sequence; a flat mapping, one none of
whose values is a sequence — including the empty mapping and mappings with
several keys — is wrapped as a one-record sequence; a sequence of records
is used as is; and the frame built from a record sequence has one row per
record with every field name among its columns. -/
theorem response_as_df_spec :
    (∀ (k : String) (xs : List JVal), (∀ x ∈ xs, x.isObj = true) →
        response_as_df (JVal.obj [(k, JVal.list xs)]) = JVal.list xs) ∧
    (∀ fields : List (String × JVal), (∀ kv ∈ fields, kv.2.isList = false) →
        response_as_df (JVal.obj fields) = JVal.list [JVal.obj fields]) ∧
    (∀ xs : List JVal, response_as_df (JVal.list xs) = JVal.list xs) ∧
    (∀ xs : List JVal, (dfRows (JVal.list xs)).length = xs.length ∧
        ∀ r ∈ xs, ∀ c ∈ rowFields r, c ∈ dfColumns xs) := by
  refine ⟨fun k xs _ => rfl, ?_, fun xs => rfl,
    fun xs => ⟨rfl, fun r hr c hc => rowFields_subset_dfColumnsAux xs [] r hr c hc⟩⟩
  intro fields h
  cases fields with
  | nil => rfl
  | cons kv rest =>
    have h0 : kv.2.isList = false := h kv (List.mem_cons_self kv rest)
    simp [response_as_df, h0]

/-- Witness for C8 at concrete responses: a single-key wrapper around one
record, a flat two-field record, a bare record list, and the frame shape
facts for that list. -/
theorem response_as_df_spec_witness :
    response_as_df (JVal.obj [("records", JVal.list [JVal.obj [("x", JVal.num 1)]])])
      = JVal.list [JVal.obj [("x", JVal.num 1)]] ∧
    response_as_df (JVal.obj [("a", JVal.num 1), ("b", JVal.str "h")])
      = JVal.list [JVal.obj [("a", JVal.num 1), ("b", JVal.str "h")]] ∧
    response_as_df (JVal.list [JVal.obj [("x", JVal.num 1)]])
      = JVal.list [JVal.obj [("x", JVal.num 1)]] ∧
    ((dfRows (JVal.list [JVal.obj [("x", JVal.num 1)]])).length
        = [JVal.obj [("x", JVal.num 1)]].length ∧
      ∀ r ∈ [JVal.obj [("x", JVal.num 1)]], ∀ c ∈ rowFields r,
        c ∈ dfColumns [JVal.obj [("x", JVal.num 1)]]) := by
  refine ⟨response_as_df_spec.1 "records" _ ?_, response_as_df_spec.2.1 _ ?_,
    response_as_df_spec.2.2.1 _, response_as_df_spec.2.2.2 _⟩
  · intro x hx
    rw [List.mem_singleton] at hx
    subst hx
    rfl
  · intro kv hkv
    rcases List.mem_cons.mp hkv with rfl | hkv
    · rfl
    · rw [List.mem_singleton] at hkv
      subst hkv
      rfl

/-- C9 (confirmed). On a non-success HTTP status, get raises a
RequestException whose message is the formatted status and body and whose
attached response carries the status code and body, and returns no value;
on a success status no such error is raised and a value is returned; and
the outcome depends only on the first response the network yields — one
request is issued, with no retry. -/
theorem get_error_handling (c : CFBDClient) (r : HttpResponse) (as_df : Bool) :
    (r.ok = false →
      c.get r as_df = Except.error
        { message := toString r.status_code ++ ": " ++ r.text, response := r }) ∧
    (r.ok = true → ∃ v, c.get r as_df = Except.ok v) ∧
    (∀ rest1 rest2 : List HttpResponse,
      c.getFromNetwork (r :: rest1) as_df = c.getFromNetwork (r :: rest2) as_df) := by
  refine ⟨?_, ?_, fun rest1 rest2 => rfl⟩
  · intro hok
    simp [CFBDClient.get, hok]
  · intro hok
    exact ⟨if as_df then response_as_df r.body_json else r.body_json,
      by simp [CFBDClient.get, hok]⟩

/-- Witness for C9: a 404 response produces exactly the carried error and
a 200 response produces a value. -/
theorem get_error_handling_witness :
    (CFBDClient.init "https://api.collegefootballdata.com/" "tok").get
        { status_code := 404, text := "Not Found", body_json := JVal.null } true
      = Except.error
          { message := toString (404 : Nat) ++ ": " ++ "Not Found",
            response := { status_code := 404, text := "Not Found", body_json := JVal.null } } ∧
    ∃ v, (CFBDClient.init "https://api.collegefootballdata.com/" "tok").get
        { status_code := 200, text := "", body_json := JVal.list [] } true
      = Except.ok v := by
  constructor
  · exact (get_error_handling _ _ _).1 (by decide)
  · exact (get_error_handling _ _ _).2.1 (by decide)

/-- Looking up the assigned key after a dict assignment yields the
assigned value. -/
theorem lookup_dict_set (d : List (String × String)) (k v : String) :
    (dict_set d k v).lookup k = some v := by
  induction d with
  | nil => simp [dict_set, List.lookup]
  | cons kv rest ih =>
    obtain ⟨k2, v2⟩ := kv
    by_cases hk : k2 = k
    · simp [dict_set, hk, List.lookup]
    · have hke : (k == k2) = false := by
        rw [beq_eq_false_iff_ne]
        exact fun he => hk he.symm
      simp [dict_set, hk, List.lookup, hke, ih]

/-- In a dict with pairwise-distinct keys, every entry at the assigned key
after an assignment carries the assigned value. -/
theorem mem_dict_set (d : List (String × String)) (k v v2 : String)
    (hnd : (d.map Prod.fst).Nodup) (h : (k, v2) ∈ dict_set d k v) : v2 = v := by
  induction d with
  | nil =>
    rw [dict_set, List.mem_singleton] at h
    exact congrArg Prod.snd h
  | cons kv rest ih =>
    obtain ⟨k2, u⟩ := kv
    rw [List.map_cons, List.nodup_cons] at hnd
    by_cases hk : k2 = k
    · subst hk
      rw [dict_set, if_pos rfl] at h
      rcases List.mem_cons.mp h with heq | hmem
      · exact congrArg Prod.snd heq
      · exact absurd (List.mem_map.mpr ⟨(k2, v2), hmem, rfl⟩) hnd.1
    · rw [dict_set, if_neg hk] at h
      rcases List.mem_cons.mp h with heq | hmem
      · exact absurd (congrArg Prod.fst heq).symm hk
      · exact ih hnd.2 hmem

/-- C10 (confirmed). After a call to get with a caller-supplied headers
dict, the caller-owned dict — mutated in place by
headers.update(self.headers) — contains the client Authorization bearer
entry, and any Authorization value the caller supplied has been
overwritten by the client one: every Authorization entry of the dict now
carries the client bearer value. -/
theorem get_mutates_caller_headers (hostname token : String)
    (d : List (String × String)) (hnd : (d.map Prod.fst).Nodup) :
    (getMutatedHeaders (CFBDClient.init hostname token) (some d)).lookup "Authorization"
      = some ("Bearer " ++ token) ∧
    ∀ v, ("Authorization", v) ∈ getMutatedHeaders (CFBDClient.init hostname token) (some d) →
      v = "Bearer " ++ token := by
  have hform : getMutatedHeaders (CFBDClient.init hostname token) (some d)
      = dict_set d "Authorization" ("Bearer " ++ token) := rfl
  constructor
  · rw [hform]
    exact lookup_dict_set d "Authorization" ("Bearer " ++ token)
  · intro v hv
    rw [hform] at hv
    exact mem_dict_set d "Authorization" ("Bearer " ++ token) v hnd hv

/-- Witness for C10: a caller dict that already carries an Authorization
entry plus an unrelated entry; after the call the Authorization value is
the client one. -/
theorem get_mutates_caller_headers_witness :
    (getMutatedHeaders (CFBDClient.init "https://api.collegefootballdata.com/" "tok")
        (some [("Authorization", "Bearer old"), ("Accept", "application/json")])).lookup
        "Authorization"
      = some ("Bearer " ++ "tok") ∧
    ∀ v, ("Authorization", v) ∈
        getMutatedHeaders (CFBDClient.init "https://api.collegefootballdata.com/" "tok")
          (some [("Authorization", "Bearer old"), ("Accept", "application/json")]) →
      v = "Bearer " ++ "tok" := by
  exact get_mutates_caller_headers _ _ _ (by decide)

end Scrape
